import Mathlib

/-!
Shallow embedding of the HealthGo fungible-token contract
(src/ft/src/lib.rs).  The contract itself only wires together the NEAR
fungible-token standard: its ledger core is produced by the macros
`impl_fungible_token_core!` and `impl_fungible_token_storage!` (line 87 and
88 of src/ft/src/lib.rs), whose expansions live in the external
`near_contract_standards` crate and are not part of the source tree.  The
ledger core below is therefore modelled from the specification (sections
4.1 to 4.4), while `Contract.new` follows the genesis code that is present
in the source (lines 60 to 76).

Balances are unsigned 128-bit integers; they are embedded as `Nat` with the
overflow bound `U128_MAX` checked explicitly where the spec requires it.
Fallible entry points return `Except FTError Contract`; an error leaves the
caller's state untouched (`applyOp` keeps the pre-state on error, matching
the abort-with-no-partial-mutation discipline of section 7).
-/

abbrev AccountId := String


def U128_MAX : Nat := 2 ^ 128 - 1

/-- Mint, transfer and burn notifications of the event sink (spec section 6). -/
inductive Event where
  | mint (owner : AccountId) (amount : Nat)
  | ftTransfer (sender receiver : AccountId) (amount : Nat)
  | burn (owner : AccountId) (amount : Nat)
  deriving DecidableEq, Repr

/-- Error kinds of spec section 7, plus the one-yoctoNEAR guard of the public
transfer entry points (exercised by `test_transfer`, which attaches deposit 1
before calling `ft_transfer`). -/
inductive FTError where
  | NotRegistered
  | AlreadyRegistered
  | NonZeroBalance
  | InsufficientBalance
  | InsufficientDeposit
  | NoExcessBalance
  | Overflow
  | ZeroAmount
  | SelfTransfer
  | OneYoctoRequired
  deriving DecidableEq, Repr

/-- The balance map, as an association list from account id to balance.
Presence of a key is the registration flag (spec section 3). -/
abbrev Accounts := List (AccountId × Nat)

/-- Look up the balance entry of an account (first occurrence). -/
def alookup : Accounts → AccountId → Option Nat
  | [], _ => none
  | (b, v) :: t, a => if b = a then some v else alookup t a

/-- Replace the balance stored for an account (first occurrence); identity
when the account is absent. -/
def setBal : Accounts → AccountId → Nat → Accounts
  | [], _, _ => []
  | (b, v) :: t, a, w => if b = a then (b, w) :: t else (b, v) :: setBal t a w

/-- Remove an account's entry (first occurrence). -/
def removeAcc : Accounts → AccountId → Accounts
  | [], _ => []
  | (b, v) :: t, a => if b = a then t else (b, v) :: removeAcc t a

/-- Contract state: the balance map, the recorded total supply, and the log
of emitted notifications. -/
structure Contract where
  accounts : Accounts
  total_supply : Nat
  events : List Event
  deriving DecidableEq, Repr

/-- Modelled from the spec: `is_registered` of section 4.1; presence in the
balance map is registration. -/
def registered (c : Contract) (a : AccountId) : Bool :=
  (alookup c.accounts a).isSome

/-- Modelled from the spec: `balance_of` of section 4.2; returns 0 for
unregistered accounts, read-only, never fails. -/
def ft_balance_of (c : Contract) (a : AccountId) : Nat :=
  (alookup c.accounts a).getD 0

/-- Modelled from the spec: `total_supply` of section 4.2. -/
def ft_total_supply (c : Contract) : Nat :=
  c.total_supply

/-- Modelled from the spec: `register` of section 4.1; fails with
`AlreadyRegistered` if present, otherwise creates the account with balance 0. -/
def internal_register_account (c : Contract) (a : AccountId) :
    Except FTError Contract :=
  if registered c a then .error .AlreadyRegistered
  else .ok { c with accounts := (a, 0) :: c.accounts }

/-- Modelled from the spec: `deposit` of section 4.2; fails with
`NotRegistered` if the account is absent and with `Overflow` past the
128-bit range, otherwise increases the balance. -/
def internal_deposit (c : Contract) (a : AccountId) (amount : Nat) :
    Except FTError Contract :=
  match alookup c.accounts a with
  | none => .error .NotRegistered
  | some v =>
      if v + amount ≤ U128_MAX then
        .ok { c with accounts := setBal c.accounts a (v + amount) }
      else .error .Overflow

/-- Modelled from the spec: `withdraw` of section 4.2; fails with
`NotRegistered` if the account is absent and with `InsufficientBalance` when
`amount > balance`, otherwise decreases the balance. -/
def internal_withdraw (c : Contract) (a : AccountId) (amount : Nat) :
    Except FTError Contract :=
  match alookup c.accounts a with
  | none => .error .NotRegistered
  | some v =>
      if amount ≤ v then
        .ok { c with accounts := setBal c.accounts a (v - amount) }
      else .error .InsufficientBalance

/-- Modelled from the spec: `transfer` of section 4.4; the pre-checks in the
spec's order (`ZeroAmount`, `SelfTransfer`, `NotRegistered`,
`InsufficientBalance`), then the atomic debit and credit via section 4.2,
then the transfer notification. -/
def internal_transfer (c : Contract) (sender receiver : AccountId)
    (amount : Nat) : Except FTError Contract :=
  if amount = 0 then .error .ZeroAmount
  else if sender = receiver then .error .SelfTransfer
  else if !(registered c sender && registered c receiver) then
    .error .NotRegistered
  else do
    let c1 ← internal_withdraw c sender amount
    let c2 ← internal_deposit c1 receiver amount
    .ok { c2 with events := .ftTransfer sender receiver amount :: c2.events }

/-- Modelled from the spec: the ledger effect of `ft_transfer` (section 4.4);
the one-yoctoNEAR guard of the public entry point is `ft_transfer_entry`. -/
def ft_transfer (c : Contract) (sender receiver : AccountId)
    (amount : Nat) : Except FTError Contract :=
  internal_transfer c sender receiver amount

/-- Modelled from the spec: the first phase of `transfer_call` (section 4.4):
the same pre-checks and optimistic debit and credit as `transfer`, before the
asynchronous call to the receiver is issued. -/
def ft_transfer_call (c : Contract) (sender receiver : AccountId)
    (amount : Nat) : Except FTError Contract :=
  internal_transfer c sender receiver amount

/-- Modelled from the spec: the unused amount derived from the external
call's outcome (section 4.4): a failed call makes the whole amount unused;
a successful call reports an unused amount of at most `amount`. -/
def unusedOf (amount : Nat) : Option Nat → Nat
  | none => amount
  | some u => min u amount

/-- Modelled from the spec: the resolution continuation of `transfer_call`
(section 4.4).  The refund to the sender is clamped to the receiver's
current balance; the shortfall is not refunded and the resolution never
fails.  When the sender was unregistered in the interim the clamped amount
is burned from the receiver, `total_supply` is reduced and a burn
notification is emitted.  Returns the updated state and the amount kept by
the receiver (`amount` minus the amount actually refunded to the sender). -/
def ft_resolve_transfer (c : Contract) (sender receiver : AccountId)
    (amount : Nat) (result : Option Nat) : Contract × Nat :=
  let unused := unusedOf amount result
  let receiverBal := ft_balance_of c receiver
  let refund := min unused receiverBal
  if refund = 0 then (c, amount)
  else
    let c1 : Contract :=
      { c with accounts := setBal c.accounts receiver (receiverBal - refund) }
    match alookup c1.accounts sender with
    | some sBal =>
        ({ c1 with
            accounts := setBal c1.accounts sender (sBal + refund),
            events := .ftTransfer receiver sender refund :: c1.events },
          amount - refund)
    | none =>
        ({ c1 with
            total_supply := c1.total_supply - refund,
            events := .burn receiver refund :: c1.events },
          amount)

/-- Modelled from the spec: `storage_deposit` of section 4.3; a no-op (with
refund of the attached value) on an already registered account, fails with
`InsufficientDeposit` when the attached value is below the fixed per-account
minimum, otherwise registers the account. -/
def storage_deposit (c : Contract) (a : AccountId)
    (attached minBound : Nat) : Except FTError Contract :=
  if registered c a then .ok c
  else if attached < minBound then .error .InsufficientDeposit
  else internal_register_account c a

/-- Modelled from the spec: `storage_withdraw` of section 4.3; accounts have
a fixed footprint, so a nonzero withdrawal fails with `NoExcessBalance` and a
zero or absent one changes nothing. -/
def storage_withdraw (c : Contract) (amount : Option Nat) :
    Except FTError Contract :=
  match amount with
  | some n => if n ≠ 0 then .error .NoExcessBalance else .ok c
  | none => .ok c

/-- Modelled from the spec: `unregister` of sections 4.1 and 4.3; fails with
`NotRegistered` on an absent account and with `NonZeroBalance` on an
unforced removal of a funded account; a forced removal burns the remaining
balance out of `total_supply` and emits a burn notification. -/
def storage_unregister (c : Contract) (a : AccountId) (force : Bool) :
    Except FTError Contract :=
  match alookup c.accounts a with
  | none => .error .NotRegistered
  | some v =>
      if v = 0 then .ok { c with accounts := removeAcc c.accounts a }
      else if force then
        .ok { c with
                accounts := removeAcc c.accounts a,
                total_supply := c.total_supply - v,
                events := .burn a v :: c.events }
      else .error .NonZeroBalance

/-- Genesis, from `Contract::new` (src/ft/src/lib.rs lines 60 to 76):
start from the empty state, register the owner, deposit the whole supply to
it and emit the mint notification; `total_supply` records the minted supply. -/
def Contract.new (owner_id : AccountId) (total_supply : Nat) :
    Except FTError Contract := do
  let c1 ← internal_register_account
    { accounts := [], total_supply := 0, events := [] } owner_id
  let c2 ← internal_deposit c1 owner_id total_supply
  .ok { c2 with
          total_supply := total_supply,
          events := .mint owner_id total_supply :: c2.events }

/-- Public `ft_transfer` entry point: the expansion of
`impl_fungible_token_core!` guards it with an exactly-one-yoctoNEAR
attached-deposit assertion before any ledger access. -/
def ft_transfer_entry (c : Contract) (attached : Nat)
    (sender receiver : AccountId) (amount : Nat) :
    Except FTError Contract :=
  if attached ≠ 1 then .error .OneYoctoRequired
  else ft_transfer c sender receiver amount

/-- Public `ft_transfer_call` entry point, with the same
one-yoctoNEAR guard as `ft_transfer_entry`. -/
def ft_transfer_call_entry (c : Contract) (attached : Nat)
    (sender receiver : AccountId) (amount : Nat) :
    Except FTError Contract :=
  if attached ≠ 1 then .error .OneYoctoRequired
  else ft_transfer_call c sender receiver amount

/-- The contract's operations, as named by the spec's reachability claim:
registration, storage deposit, storage withdraw, storage unregister,
transfer, transfer-call and its resolution. -/
inductive Op where
  | register (a : AccountId)
  | storageDeposit (a : AccountId) (attached minBound : Nat)
  | storageWithdraw (amount : Option Nat)
  | storageUnregister (a : AccountId) (force : Bool)
  | transfer (sender receiver : AccountId) (amount : Nat)
  | transferCall (sender receiver : AccountId) (amount : Nat)
  | resolveTransfer (sender receiver : AccountId) (amount : Nat)
      (result : Option Nat)
  deriving DecidableEq, Repr

/-- Run one operation, returning the failure or the successor state. -/
def runOp (c : Contract) : Op → Except FTError Contract
  | .register a => internal_register_account c a
  | .storageDeposit a att mb => storage_deposit c a att mb
  | .storageWithdraw amt => storage_withdraw c amt
  | .storageUnregister a f => storage_unregister c a f
  | .transfer s r amt => ft_transfer c s r amt
  | .transferCall s r amt => ft_transfer_call c s r amt
  | .resolveTransfer s r amt res => .ok (ft_resolve_transfer c s r amt res).1

/-- A failed invocation aborts with no ledger mutation (spec section 7):
keep the pre-state on error. -/
def resolveExcept (c : Contract) : Except FTError Contract → Contract
  | .ok c' => c'
  | .error _ => c

/-- One step of the contract: the successor state on success, the unchanged
pre-state on failure. -/
def applyOp (c : Contract) (op : Op) : Contract :=
  resolveExcept c (runOp c op)

/-- Run a sequence of operations from a state. -/
def applyOps (c : Contract) (ops : List Op) : Contract :=
  ops.foldl applyOp c

/-- Sum of all registered balances. -/
def sumBal (l : Accounts) : Nat :=
  (l.map Prod.snd).sum

/-- Recognizer for a forced unregistration operation. -/
def Op.isForcedUnregister : Op → Bool
  | .storageUnregister _ f => f
  | _ => false

/-- Recognizer for a transfer-call resolution operation. -/
def Op.isResolveTransfer : Op → Bool
  | .resolveTransfer _ _ _ _ => true
  | _ => false

/-! ### Association-list lemmas -/

theorem sumBal_nil : sumBal [] = 0 := rfl

theorem sumBal_cons (b : AccountId) (x : Nat) (t : Accounts) :
    sumBal ((b, x) :: t) = x + sumBal t := by
  simp [sumBal]

theorem alookup_setBal_self (l : Accounts) (a : AccountId) (v w : Nat)
    (h : alookup l a = some v) : alookup (setBal l a w) a = some w := by
  induction l with
  | nil => simp [alookup] at h
  | cons p t ih =>
    obtain ⟨b, x⟩ := p
    by_cases hb : b = a
    · simp [alookup, setBal, hb]
    · simp [alookup, hb] at h
      simp [alookup, setBal, hb]
      exact ih h

theorem alookup_setBal_ne (l : Accounts) (a b : AccountId) (w : Nat)
    (h : b ≠ a) : alookup (setBal l b w) a = alookup l a := by
  induction l with
  | nil => simp [setBal]
  | cons p t ih =>
    obtain ⟨k, x⟩ := p
    by_cases hk : k = b
    · subst hk
      simp [setBal, alookup, h]
    · simp [setBal, hk, alookup]
      by_cases hka : k = a
      · simp [hka]
      · simp [hka]
        exact ih

theorem setBal_setBal_self (l : Accounts) (a : AccountId) (v w : Nat) :
    setBal (setBal l a v) a w = setBal l a w := by
  induction l with
  | nil => simp [setBal]
  | cons p t ih =>
    obtain ⟨k, x⟩ := p
    by_cases hk : k = a
    · simp [setBal, hk]
    · simp [setBal, hk, ih]

theorem setBal_comm (l : Accounts) (a b : AccountId) (v w : Nat)
    (h : a ≠ b) : setBal (setBal l a v) b w = setBal (setBal l b w) a v := by
  induction l with
  | nil => simp [setBal]
  | cons p t ih =>
    obtain ⟨k, x⟩ := p
    by_cases hka : k = a
    · subst hka
      simp [setBal, h]
    · by_cases hkb : k = b
      · subst hkb
        simp [setBal, hka]
      · simp [setBal, hka, hkb, ih]

theorem setBal_self_eq (l : Accounts) (a : AccountId) (v : Nat)
    (h : alookup l a = some v) : setBal l a v = l := by
  induction l with
  | nil => simp [alookup] at h
  | cons p t ih =>
    obtain ⟨k, x⟩ := p
    by_cases hk : k = a
    · simp [alookup, hk] at h
      simp [setBal, hk, h]
    · simp [alookup, hk] at h
      simp [setBal, hk, ih h]

theorem sumBal_setBal (l : Accounts) (a : AccountId) (v w : Nat)
    (h : alookup l a = some v) :
    sumBal (setBal l a w) + v = sumBal l + w := by
  induction l with
  | nil => simp [alookup] at h
  | cons p t ih =>
    obtain ⟨k, x⟩ := p
    by_cases hk : k = a
    · simp [alookup, hk] at h
      simp [setBal, hk, sumBal_cons, h]
      omega
    · simp [alookup, hk] at h
      have := ih h
      simp [setBal, hk, sumBal_cons]
      omega

theorem sumBal_removeAcc (l : Accounts) (a : AccountId) (v : Nat)
    (h : alookup l a = some v) :
    sumBal (removeAcc l a) + v = sumBal l := by
  induction l with
  | nil => simp [alookup] at h
  | cons p t ih =>
    obtain ⟨k, x⟩ := p
    by_cases hk : k = a
    · simp [alookup, hk] at h
      simp [removeAcc, hk, sumBal_cons, h]
      omega
    · simp [alookup, hk] at h
      have := ih h
      simp [removeAcc, hk, sumBal_cons]
      omega

theorem le_sumBal (l : Accounts) (a : AccountId) (v : Nat)
    (h : alookup l a = some v) : v ≤ sumBal l := by
  induction l with
  | nil => simp [alookup] at h
  | cons p t ih =>
    obtain ⟨k, x⟩ := p
    by_cases hk : k = a
    · simp [alookup, hk] at h
      simp [sumBal_cons]
      omega
    · simp [alookup, hk] at h
      have := ih h
      simp [sumBal_cons]
      omega

/-! ### Reduction lemmas for the Except monad -/

theorem exceptBind_ok {ε α β : Type} (a : α) (f : α → Except ε β) :
    (Except.ok a >>= f) = f a := rfl

theorem exceptBind_error {ε α β : Type} (e : ε) (f : α → Except ε β) :
    ((Except.error e : Except ε α) >>= f) = Except.error e := rfl

/-! ### Successful-run inversion lemmas for the ledger operations -/

theorem internal_register_account_ok (c c' : Contract) (a : AccountId)
    (h : internal_register_account c a = Except.ok c') :
    c'.accounts = (a, 0) :: c.accounts ∧ c'.total_supply = c.total_supply ∧
    c'.events = c.events := by
  unfold internal_register_account at h
  split at h
  · simp at h
  · simp only [Except.ok.injEq] at h
    subst h
    exact ⟨rfl, rfl, rfl⟩

theorem internal_deposit_ok (c c' : Contract) (a : AccountId) (amt : Nat)
    (h : internal_deposit c a amt = Except.ok c') :
    ∃ v, alookup c.accounts a = some v ∧ v + amt ≤ U128_MAX ∧
      c'.accounts = setBal c.accounts a (v + amt) ∧
      c'.total_supply = c.total_supply ∧ c'.events = c.events := by
  unfold internal_deposit at h
  split at h
  · simp at h
  next v hv =>
    split at h
    next hle =>
      simp only [Except.ok.injEq] at h
      subst h
      exact ⟨v, hv, hle, rfl, rfl, rfl⟩
    next hgt => simp at h

theorem internal_withdraw_ok (c c' : Contract) (a : AccountId) (amt : Nat)
    (h : internal_withdraw c a amt = Except.ok c') :
    ∃ v, alookup c.accounts a = some v ∧ amt ≤ v ∧
      c'.accounts = setBal c.accounts a (v - amt) ∧
      c'.total_supply = c.total_supply ∧ c'.events = c.events := by
  unfold internal_withdraw at h
  split at h
  · simp at h
  next v hv =>
    split at h
    next hle =>
      simp only [Except.ok.injEq] at h
      subst h
      exact ⟨v, hv, hle, rfl, rfl, rfl⟩
    next hgt => simp at h

theorem internal_transfer_ok (c c' : Contract) (s r : AccountId) (amt : Nat)
    (h : internal_transfer c s r amt = Except.ok c') :
    ∃ c1 c2, internal_withdraw c s amt = Except.ok c1 ∧
      internal_deposit c1 r amt = Except.ok c2 ∧
      c'.accounts = c2.accounts ∧ c'.total_supply = c2.total_supply ∧
      amt ≠ 0 ∧ s ≠ r ∧
      c'.events = Event.ftTransfer s r amt :: c2.events := by
  unfold internal_transfer at h
  split at h
  · simp at h
  next hz =>
    split at h
    · simp at h
    next hsr =>
      split at h
      · simp at h
      next hreg =>
        cases hw : internal_withdraw c s amt with
        | error e => rw [hw, exceptBind_error] at h; simp at h
        | ok c1 =>
          rw [hw, exceptBind_ok] at h
          cases hd : internal_deposit c1 r amt with
          | error e => rw [hd, exceptBind_error] at h; simp at h
          | ok c2 =>
            rw [hd, exceptBind_ok] at h
            simp only [Except.ok.injEq] at h
            subst h
            exact ⟨c1, c2, rfl, hd, rfl, rfl, hz, hsr, rfl⟩

/-! ### Conservation of the sum of balances -/

theorem internal_transfer_sum (c c' : Contract) (s r : AccountId) (amt : Nat)
    (h : internal_transfer c s r amt = Except.ok c') :
    sumBal c'.accounts = sumBal c.accounts ∧
    c'.total_supply = c.total_supply := by
  obtain ⟨c1, c2, hw, hd, hacc, hts, -, -, -⟩ := internal_transfer_ok c c' s r amt h
  obtain ⟨v, hv, hle, hacc1, hts1, -⟩ := internal_withdraw_ok c c1 s amt hw
  obtain ⟨u, hu, -, hacc2, hts2, -⟩ := internal_deposit_ok c1 c2 r amt hd
  have e1 := sumBal_setBal c.accounts s v (v - amt) hv
  have e2 := sumBal_setBal c1.accounts r u (u + amt) hu
  rw [hacc, hacc2, hacc1]
  rw [hacc1] at e2
  constructor
  · omega
  · rw [hts, hts2, hts1]

theorem storage_unregister_inv (c c' : Contract) (a : AccountId) (f : Bool)
    (h : storage_unregister c a f = Except.ok c')
    (hinv : sumBal c.accounts = c.total_supply) :
    sumBal c'.accounts = c'.total_supply := by
  unfold storage_unregister at h
  split at h
  · simp at h
  next v hv =>
    have hrm := sumBal_removeAcc c.accounts a v hv
    split at h
    next hv0 =>
      simp only [Except.ok.injEq] at h
      subst h
      show sumBal (removeAcc c.accounts a) = c.total_supply
      omega
    next hv0 =>
      split at h
      · simp only [Except.ok.injEq] at h
        subst h
        show sumBal (removeAcc c.accounts a) = c.total_supply - v
        omega
      · simp at h

theorem ft_resolve_transfer_inv (c : Contract) (s r : AccountId) (amt : Nat)
    (res : Option Nat) (hinv : sumBal c.accounts = c.total_supply) :
    sumBal (ft_resolve_transfer c s r amt res).1.accounts
      = (ft_resolve_transfer c s r amt res).1.total_supply := by
  unfold ft_resolve_transfer
  by_cases h0 : min (unusedOf amt res) (ft_balance_of c r) = 0
  · simp only [h0, if_pos rfl]
    exact hinv
  · simp only [if_neg h0]
    have hrB : alookup c.accounts r = some (ft_balance_of c r) := by
      cases hl : alookup c.accounts r with
      | none =>
          exfalso
          apply h0
          unfold ft_balance_of
          rw [hl]
          simp
      | some u =>
          unfold ft_balance_of
          rw [hl]
          rfl
    have e1 := sumBal_setBal c.accounts r (ft_balance_of c r)
      (ft_balance_of c r - min (unusedOf amt res) (ft_balance_of c r)) hrB
    have hle : min (unusedOf amt res) (ft_balance_of c r) ≤ ft_balance_of c r :=
      Nat.min_le_right _ _
    cases hs : alookup (setBal c.accounts r
        (ft_balance_of c r - min (unusedOf amt res) (ft_balance_of c r))) s with
    | some sB =>
        simp only [hs]
        have e2 := sumBal_setBal (setBal c.accounts r
            (ft_balance_of c r - min (unusedOf amt res) (ft_balance_of c r))) s sB
          (sB + min (unusedOf amt res) (ft_balance_of c r)) hs
        show sumBal (setBal (setBal c.accounts r
            (ft_balance_of c r - min (unusedOf amt res) (ft_balance_of c r))) s
            (sB + min (unusedOf amt res) (ft_balance_of c r))) = c.total_supply
        omega
    | none =>
        simp only [hs]
        show sumBal (setBal c.accounts r
            (ft_balance_of c r - min (unusedOf amt res) (ft_balance_of c r)))
          = c.total_supply - min (unusedOf amt res) (ft_balance_of c r)
        omega

theorem storage_deposit_ok_cases (c c' : Contract) (a : AccountId)
    (att mb : Nat) (h : storage_deposit c a att mb = Except.ok c') :
    c' = c ∨ internal_register_account c a = Except.ok c' := by
  unfold storage_deposit at h
  split at h
  · simp only [Except.ok.injEq] at h
    exact Or.inl h.symm
  · split at h
    · simp at h
    · exact Or.inr h

theorem storage_withdraw_ok (c c' : Contract) (amt : Option Nat)
    (h : storage_withdraw c amt = Except.ok c') : c' = c := by
  unfold storage_withdraw at h
  split at h
  · split at h
    · simp at h
    · simp only [Except.ok.injEq] at h
      exact h.symm
  · simp only [Except.ok.injEq] at h
    exact h.symm

theorem internal_register_account_sum (c c' : Contract) (a : AccountId)
    (h : internal_register_account c a = Except.ok c') :
    sumBal c'.accounts = sumBal c.accounts ∧
    c'.total_supply = c.total_supply := by
  obtain ⟨h1, h2, -⟩ := internal_register_account_ok c c' a h
  refine ⟨?_, h2⟩
  rw [h1, sumBal_cons]
  omega

/-- Genesis produces the singleton ledger holding the whole supply for the
owner, and the mint notification. -/
theorem Contract.new_ok (owner : AccountId) (supply : Nat) (c0 : Contract)
    (h : Contract.new owner supply = Except.ok c0) :
    c0.accounts = [(owner, 0 + supply)] ∧ c0.total_supply = supply ∧
    c0.events = [Event.mint owner supply] := by
  unfold Contract.new at h
  cases hr : internal_register_account
      { accounts := [], total_supply := 0, events := [] } owner with
  | error e => rw [hr, exceptBind_error] at h; simp at h
  | ok c1 =>
    rw [hr, exceptBind_ok] at h
    cases hd : internal_deposit c1 owner supply with
    | error e => rw [hd, exceptBind_error] at h; simp at h
    | ok c2 =>
      rw [hd, exceptBind_ok] at h
      simp only [Except.ok.injEq] at h
      subst h
      obtain ⟨hacc1, hts1, hev1⟩ := internal_register_account_ok _ c1 owner hr
      obtain ⟨v, hv, hle, hacc2, hts2, hev2⟩ :=
        internal_deposit_ok c1 c2 owner supply hd
      rw [hacc1] at hv hacc2
      simp [alookup] at hv
      subst hv
      refine ⟨?_, rfl, ?_⟩
      · show c2.accounts = _
        rw [hacc2]
        simp [setBal]
      · show Event.mint owner supply :: c2.events = _
        rw [hev2, hev1]

theorem Contract.new_inv (owner : AccountId) (supply : Nat) (c0 : Contract)
    (h : Contract.new owner supply = Except.ok c0) :
    sumBal c0.accounts = c0.total_supply := by
  obtain ⟨h1, h2, -⟩ := Contract.new_ok owner supply c0 h
  rw [h1, h2, sumBal_cons]
  simp [sumBal]

/-- Every successful operation preserves the equality between the sum of all
balances and the recorded total supply. -/
theorem runOp_inv (c c' : Contract) (op : Op)
    (h : runOp c op = Except.ok c')
    (hinv : sumBal c.accounts = c.total_supply) :
    sumBal c'.accounts = c'.total_supply := by
  cases op with
  | register a =>
      obtain ⟨h1, h2⟩ := internal_register_account_sum c c' a h
      rw [h1, h2]
      exact hinv
  | storageDeposit a att mb =>
      rcases storage_deposit_ok_cases c c' a att mb h with hc | hr
      · rw [hc]; exact hinv
      · obtain ⟨h1, h2⟩ := internal_register_account_sum c c' a hr
        rw [h1, h2]
        exact hinv
  | storageWithdraw amt =>
      rw [storage_withdraw_ok c c' amt h]
      exact hinv
  | storageUnregister a f =>
      exact storage_unregister_inv c c' a f h hinv
  | transfer s r amt =>
      obtain ⟨h1, h2⟩ := internal_transfer_sum c c' s r amt h
      rw [h1, h2]
      exact hinv
  | transferCall s r amt =>
      obtain ⟨h1, h2⟩ := internal_transfer_sum c c' s r amt h
      rw [h1, h2]
      exact hinv
  | resolveTransfer s r amt res =>
      simp only [runOp, Except.ok.injEq] at h
      rw [← h]
      exact ft_resolve_transfer_inv c s r amt res hinv

theorem applyOp_inv (c : Contract) (op : Op)
    (hinv : sumBal c.accounts = c.total_supply) :
    sumBal (applyOp c op).accounts = (applyOp c op).total_supply := by
  unfold applyOp
  cases hr : runOp c op with
  | ok c' => exact runOp_inv c c' op hr hinv
  | error e => exact hinv

theorem applyOps_inv (ops : List Op) (c : Contract)
    (hinv : sumBal c.accounts = c.total_supply) :
    sumBal (applyOps c ops).accounts = (applyOps c ops).total_supply := by
  induction ops generalizing c with
  | nil => exact hinv
  | cons op t ih =>
      simp only [applyOps, List.foldl_cons]
      exact ih (applyOp c op) (applyOp_inv c op hinv)

/-! ### Small helper lemmas shared by the claim proofs -/

theorem bal_zero_of_unregistered (c : Contract) (a : AccountId)
    (h : registered c a = false) : ft_balance_of c a = 0 := by
  unfold registered at h
  unfold ft_balance_of
  cases hl : alookup c.accounts a with
  | none => rfl
  | some v => rw [hl] at h; simp at h

theorem registered_some (c : Contract) (a : AccountId)
    (h : registered c a = true) : ∃ v, alookup c.accounts a = some v := by
  unfold registered at h
  cases hl : alookup c.accounts a with
  | none => rw [hl] at h; simp at h
  | some v => exact ⟨v, rfl⟩

theorem unregistered_none (c : Contract) (a : AccountId)
    (h : registered c a = false) : alookup c.accounts a = none := by
  unfold registered at h
  cases hl : alookup c.accounts a with
  | none => rfl
  | some v => rw [hl] at h; simp at h

theorem unusedOf_le (amount : Nat) (res : Option Nat) :
    unusedOf amount res ≤ amount := by
  cases res with
  | none => exact Nat.le_refl _
  | some u => exact Nat.min_le_right _ _

theorem bal_of_lookup (c : Contract) (a : AccountId) (v : Nat)
    (h : alookup c.accounts a = some v) : ft_balance_of c a = v := by
  unfold ft_balance_of
  rw [h]
  rfl

theorem internal_withdraw_insufficient (c : Contract) (s : AccountId)
    (amt v : Nat) (hv : alookup c.accounts s = some v) (hvlt : ¬ amt ≤ v) :
    internal_withdraw c s amt = Except.error FTError.InsufficientBalance := by
  unfold internal_withdraw
  split
  next heq => rw [heq] at hv; exact absurd hv (by simp)
  next v' heq =>
    rw [heq] at hv
    simp only [Option.some.injEq] at hv
    subst hv
    rw [if_neg hvlt]

theorem transfer_insufficient (c : Contract) (s r : AccountId) (amt : Nat)
    (hrs : registered c s = true) (hrr : registered c r = true) (hne : s ≠ r)
    (hlt : ft_balance_of c s < amt) :
    internal_transfer c s r amt = Except.error FTError.InsufficientBalance := by
  unfold internal_transfer
  have hz : ¬ amt = 0 := by omega
  rw [if_neg hz, if_neg hne]
  have hb : (!(registered c s && registered c r)) = false := by
    rw [hrs, hrr]
    rfl
  simp only [hb, Bool.false_eq_true, if_false]
  obtain ⟨v, hv⟩ := registered_some c s hrs
  have hvlt : ¬ amt ≤ v := by
    have := bal_of_lookup c s v hv
    omega
  rw [internal_withdraw_insufficient c s amt v hv hvlt, exceptBind_error]

/-! ### Claim C1 -/

/-- C1: for every state reachable from genesis by any sequence of the
contract's operations (registration, storage deposit, storage withdraw,
storage unregister, transfer, transfer-call and its resolution), the sum of
the balances of all registered accounts equals `total_supply()`. -/
theorem C1_reachable_sum_eq_total_supply (owner : AccountId) (supply : Nat)
    (c0 : Contract) (ops : List Op)
    (h0 : Contract.new owner supply = Except.ok c0) :
    sumBal (applyOps c0 ops).accounts = ft_total_supply (applyOps c0 ops) :=
  applyOps_inv ops c0 (Contract.new_inv owner supply c0 h0)

theorem C1_reachable_sum_eq_total_supply_witness :
    sumBal (applyOps (Contract.mk [("o", 100)] 100 [Event.mint "o" 100])
      [Op.storageDeposit "b" 5 5, Op.transfer "o" "b" 30,
        Op.storageUnregister "o" true]).accounts
      = ft_total_supply
        (applyOps (Contract.mk [("o", 100)] 100 [Event.mint "o" 100])
          [Op.storageDeposit "b" 5 5, Op.transfer "o" "b" 30,
            Op.storageUnregister "o" true]) :=
  C1_reachable_sum_eq_total_supply "o" 100 _ _ rfl

/-! ### Claim C8 -/

/-- C8: genesis initialization with owner `owner` and total supply
1_000_000_000_000_000 mints exactly that amount to the owner: the owner is
the only registered account, its balance and `total_supply()` both equal the
supply, and the mint notification is emitted. -/
theorem C8_genesis_mint (owner : AccountId) :
    Contract.new owner 1000000000000000 =
      Except.ok (Contract.mk [(owner, 1000000000000000)] 1000000000000000
        [Event.mint owner 1000000000000000]) := by
  have h1 : internal_register_account (Contract.mk [] 0 []) owner
      = Except.ok (Contract.mk [(owner, 0)] 0 []) := rfl
  have h2 : internal_deposit (Contract.mk [(owner, 0)] 0 [])
      owner 1000000000000000
      = Except.ok (Contract.mk [(owner, 1000000000000000)] 0 []) := by
    unfold internal_deposit
    split
    next heq =>
      simp [alookup] at heq
    next v heq =>
      simp [alookup] at heq
      subst heq
      rw [if_pos (by norm_num [U128_MAX])]
      simp [setBal]
  unfold Contract.new
  rw [h1, exceptBind_ok, h2, exceptBind_ok]

/-! ### Claim C9 -/

/-- C9: `ft_balance_of` is a total, read-only query (a plain function of the
state that cannot fail or mutate anything), and it returns 0 whenever the
account is not registered. -/
theorem C9_balance_of_unregistered (c : Contract) (a : AccountId)
    (h : registered c a = false) : ft_balance_of c a = 0 :=
  bal_zero_of_unregistered c a h

theorem C9_balance_of_unregistered_witness :
    ft_balance_of (Contract.mk [("o", 5)] 5 []) "x" = 0 :=
  C9_balance_of_unregistered (Contract.mk [("o", 5)] 5 []) "x" (by decide)

/-! ### Claim C10 -/

/-- C10: the public transfer entry points abort, leaving the ledger
unchanged, whenever the attached native deposit is not exactly one
yoctoNEAR, regardless of the call's other arguments (so even when all the
spec-listed pre-checks hold); the spec does not mention this precondition. -/
theorem C10_one_yocto_required (c : Contract) (attached : Nat)
    (s r : AccountId) (amt : Nat) (h : attached ≠ 1) :
    ft_transfer_entry c attached s r amt
      = Except.error FTError.OneYoctoRequired ∧
    ft_transfer_call_entry c attached s r amt
      = Except.error FTError.OneYoctoRequired ∧
    resolveExcept c (ft_transfer_entry c attached s r amt) = c ∧
    resolveExcept c (ft_transfer_call_entry c attached s r amt) = c := by
  unfold ft_transfer_entry ft_transfer_call_entry
  simp only [if_pos h]
  exact ⟨trivial, trivial, rfl, rfl⟩

theorem C10_one_yocto_required_witness :
    ft_transfer_entry (Contract.mk [("a", 100), ("b", 0)] 100 []) 0 "a" "b" 5
      = Except.error FTError.OneYoctoRequired ∧
    ft_transfer_call_entry (Contract.mk [("a", 100), ("b", 0)] 100 [])
        0 "a" "b" 5
      = Except.error FTError.OneYoctoRequired ∧
    resolveExcept (Contract.mk [("a", 100), ("b", 0)] 100 [])
      (ft_transfer_entry (Contract.mk [("a", 100), ("b", 0)] 100 [])
        0 "a" "b" 5)
      = Contract.mk [("a", 100), ("b", 0)] 100 [] ∧
    resolveExcept (Contract.mk [("a", 100), ("b", 0)] 100 [])
      (ft_transfer_call_entry (Contract.mk [("a", 100), ("b", 0)] 100 [])
        0 "a" "b" 5)
      = Contract.mk [("a", 100), ("b", 0)] 100 [] :=
  C10_one_yocto_required (Contract.mk [("a", 100), ("b", 0)] 100 [])
    0 "a" "b" 5 (by decide)

/-! ### Claim C2 -/

/-- C2: for distinct registered accounts `s` and `r`, a successful
`transfer(s, r, amt)` debits `s` by exactly `amt`, credits `r` by exactly
`amt`, and so leaves `balance_of(s) + balance_of(r)` unchanged; and the
transfer fails with `InsufficientBalance` whenever `amt > balance_of(s)`. -/
theorem C2_transfer_conservation (c : Contract) (s r : AccountId) (amt : Nat)
    (hrs : registered c s = true) (hrr : registered c r = true)
    (hne : s ≠ r) :
    (∀ c', ft_transfer c s r amt = Except.ok c' →
      ft_balance_of c' s + amt = ft_balance_of c s ∧
      ft_balance_of c' r = ft_balance_of c r + amt ∧
      ft_balance_of c' s + ft_balance_of c' r
        = ft_balance_of c s + ft_balance_of c r) ∧
    (ft_balance_of c s < amt →
      ft_transfer c s r amt = Except.error FTError.InsufficientBalance) := by
  constructor
  · intro c' h
    obtain ⟨c1, c2, hw, hd, hacc, hts, hz, hsr, hev⟩ :=
      internal_transfer_ok c c' s r amt h
    obtain ⟨v, hv, hle, hacc1, -, -⟩ := internal_withdraw_ok c c1 s amt hw
    obtain ⟨u, hu0, -, hacc2, -, -⟩ := internal_deposit_ok c1 c2 r amt hd
    rw [hacc1] at hu0 hacc2
    have hur : alookup c.accounts r = some u := by
      rw [← alookup_setBal_ne c.accounts r s (v - amt) hne]
      exact hu0
    have hbs : ft_balance_of c s = v := bal_of_lookup c s v hv
    have hbr : ft_balance_of c r = u := by
      unfold ft_balance_of
      rw [hur]
      rfl
    have hbs' : ft_balance_of c' s = v - amt := by
      unfold ft_balance_of
      rw [hacc, hacc2,
        alookup_setBal_ne _ s r (u + amt) (Ne.symm hne),
        alookup_setBal_self c.accounts s v (v - amt) hv]
      rfl
    have hbr' : ft_balance_of c' r = u + amt := by
      unfold ft_balance_of
      rw [hacc, hacc2, alookup_setBal_self _ r u (u + amt) hu0]
      rfl
    rw [hbs, hbr, hbs', hbr']
    refine ⟨by omega, rfl, by omega⟩
  · intro hlt
    exact transfer_insufficient c s r amt hrs hrr hne hlt

theorem C2_transfer_conservation_witness :
    (ft_balance_of (Contract.mk [("a", 70), ("b", 80)] 150
        [Event.ftTransfer "a" "b" 30]) "a" + 30
      = ft_balance_of (Contract.mk [("a", 100), ("b", 50)] 150 []) "a" ∧
    ft_balance_of (Contract.mk [("a", 70), ("b", 80)] 150
        [Event.ftTransfer "a" "b" 30]) "b"
      = ft_balance_of (Contract.mk [("a", 100), ("b", 50)] 150 []) "b" + 30 ∧
    ft_balance_of (Contract.mk [("a", 70), ("b", 80)] 150
        [Event.ftTransfer "a" "b" 30]) "a"
        + ft_balance_of (Contract.mk [("a", 70), ("b", 80)] 150
          [Event.ftTransfer "a" "b" 30]) "b"
      = ft_balance_of (Contract.mk [("a", 100), ("b", 50)] 150 []) "a"
        + ft_balance_of (Contract.mk [("a", 100), ("b", 50)] 150 []) "b") ∧
    ft_transfer (Contract.mk [("a", 100), ("b", 50)] 150 []) "a" "b" 200
      = Except.error FTError.InsufficientBalance :=
  ⟨(C2_transfer_conservation (Contract.mk [("a", 100), ("b", 50)] 150 [])
      "a" "b" 30 rfl rfl (by decide)).1
    (Contract.mk [("a", 70), ("b", 80)] 150 [Event.ftTransfer "a" "b" 30])
    rfl,
  (C2_transfer_conservation (Contract.mk [("a", 100), ("b", 50)] 150 [])
      "a" "b" 200 rfl rfl (by decide)).2 (by norm_num [ft_balance_of, alookup])⟩

/-! ### Claim C7 -/

/-- C7: `transfer` fails with `ZeroAmount` on a zero amount, with
`SelfTransfer` on `s = r` (amount nonzero), with `NotRegistered` when either
side has no balance entry (amount nonzero, distinct parties), and with
`InsufficientBalance` when the sender's balance is below the amount (all
earlier checks passing); every failure leaves the ledger unchanged. -/
theorem C7_transfer_error_cases (c : Contract) (s r : AccountId)
    (amt : Nat) :
    (amt = 0 → ft_transfer c s r amt = Except.error FTError.ZeroAmount) ∧
    (amt ≠ 0 → s = r →
      ft_transfer c s r amt = Except.error FTError.SelfTransfer) ∧
    (amt ≠ 0 → s ≠ r → (registered c s && registered c r) = false →
      ft_transfer c s r amt = Except.error FTError.NotRegistered) ∧
    (amt ≠ 0 → s ≠ r → registered c s = true → registered c r = true →
      ft_balance_of c s < amt →
      ft_transfer c s r amt = Except.error FTError.InsufficientBalance) ∧
    ((ft_transfer c s r amt).isOk = false →
      applyOp c (Op.transfer s r amt) = c) := by
  refine ⟨?_, ?_, ?_, ?_, ?_⟩
  · intro hz
    unfold ft_transfer internal_transfer
    rw [if_pos hz]
  · intro hz hsr
    unfold ft_transfer internal_transfer
    rw [if_neg hz, if_pos hsr]
  · intro hz hsr hreg
    unfold ft_transfer internal_transfer
    rw [if_neg hz, if_neg hsr]
    have : (!(registered c s && registered c r)) = true := by
      rw [hreg]
      rfl
    rw [if_pos this]
  · intro hz hsr hrs hrr hlt
    exact transfer_insufficient c s r amt hrs hrr hsr hlt
  · intro hfail
    show resolveExcept c (ft_transfer c s r amt) = c
    cases hr : ft_transfer c s r amt with
    | ok c' =>
        rw [hr] at hfail
        simp [Except.isOk, Except.toBool] at hfail
    | error e => rfl

theorem C7_transfer_error_cases_witness :
    ft_transfer (Contract.mk [("a", 100), ("b", 50)] 150 []) "a" "a" 5
      = Except.error FTError.SelfTransfer ∧
    applyOp (Contract.mk [("a", 100), ("b", 50)] 150 [])
        (Op.transfer "a" "a" 5)
      = Contract.mk [("a", 100), ("b", 50)] 150 [] :=
  ⟨(C7_transfer_error_cases (Contract.mk [("a", 100), ("b", 50)] 150 [])
      "a" "a" 5).2.1 (by decide) rfl,
  (C7_transfer_error_cases (Contract.mk [("a", 100), ("b", 50)] 150 [])
      "a" "a" 5).2.2.2.2 (by decide)⟩

/-! ### Characterizations of the resolution continuation -/

theorem bal_mk (l : Accounts) (ts : Nat) (ev : List Event) (a : AccountId) :
    ft_balance_of (Contract.mk l ts ev) a = (alookup l a).getD 0 := rfl

theorem alookup_of_bal_ne_zero (c : Contract) (r : AccountId)
    (h : ft_balance_of c r ≠ 0) :
    alookup c.accounts r = some (ft_balance_of c r) := by
  unfold ft_balance_of at h
  cases hl : alookup c.accounts r with
  | none => rw [hl] at h; simp at h
  | some u =>
      unfold ft_balance_of
      rw [hl]
      rfl

theorem ft_resolve_transfer_spec_zero (c : Contract) (s r : AccountId)
    (amount : Nat) (result : Option Nat)
    (h0 : min (unusedOf amount result) (ft_balance_of c r) = 0) :
    ft_resolve_transfer c s r amount result = (c, amount) := by
  unfold ft_resolve_transfer
  rw [if_pos h0]

theorem ft_resolve_transfer_spec_registered (c : Contract) (s r : AccountId)
    (amount : Nat) (result : Option Nat) (sB : Nat)
    (hsB : alookup c.accounts s = some sB) (hne : s ≠ r)
    (h0 : min (unusedOf amount result) (ft_balance_of c r) ≠ 0) :
    ft_resolve_transfer c s r amount result
      = (Contract.mk
          (setBal
            (setBal c.accounts r (ft_balance_of c r
              - min (unusedOf amount result) (ft_balance_of c r)))
            s (sB + min (unusedOf amount result) (ft_balance_of c r)))
          c.total_supply
          (Event.ftTransfer r s
              (min (unusedOf amount result) (ft_balance_of c r))
            :: c.events),
        amount - min (unusedOf amount result) (ft_balance_of c r)) := by
  unfold ft_resolve_transfer
  simp only [if_neg h0]
  have hls : alookup
      (setBal c.accounts r (ft_balance_of c r
        - min (unusedOf amount result) (ft_balance_of c r))) s
      = some sB := by
    rw [alookup_setBal_ne c.accounts s r
      (ft_balance_of c r - min (unusedOf amount result) (ft_balance_of c r))
      (Ne.symm hne)]
    exact hsB
  rw [hls]

theorem ft_resolve_transfer_spec_unregistered (c : Contract)
    (s r : AccountId) (amount : Nat) (result : Option Nat)
    (hs : alookup c.accounts s = none) (hne : s ≠ r)
    (h0 : min (unusedOf amount result) (ft_balance_of c r) ≠ 0) :
    ft_resolve_transfer c s r amount result
      = (Contract.mk
          (setBal c.accounts r (ft_balance_of c r
            - min (unusedOf amount result) (ft_balance_of c r)))
          (c.total_supply
            - min (unusedOf amount result) (ft_balance_of c r))
          (Event.burn r (min (unusedOf amount result) (ft_balance_of c r))
            :: c.events),
        amount) := by
  unfold ft_resolve_transfer
  simp only [if_neg h0]
  have hls : alookup
      (setBal c.accounts r (ft_balance_of c r
        - min (unusedOf amount result) (ft_balance_of c r))) s
      = none := by
    rw [alookup_setBal_ne c.accounts s r
      (ft_balance_of c r - min (unusedOf amount result) (ft_balance_of c r))
      (Ne.symm hne)]
    exact hs
  rw [hls]

/-! ### Claim C3 -/

/-- C3: in the resolution of `transfer_call`, the unused amount is the whole
`amount` on a failed external call and the receiver-reported value (clamped
to `amount`) otherwise; when the sender is still registered the refund
actually applied is the minimum of the unused amount and the receiver's
current balance (the shortfall is not refunded), the resolution is a total
function (it never fails), and the value returned to the caller is `amount`
minus the amount actually refunded. -/
theorem C3_resolution_clamped_refund (c : Contract) (s r : AccountId)
    (amount : Nat) (result : Option Nat)
    (hs : registered c s = true) (hne : s ≠ r) :
    ft_balance_of (ft_resolve_transfer c s r amount result).1 s
      = ft_balance_of c s
        + min (unusedOf amount result) (ft_balance_of c r) ∧
    ft_balance_of (ft_resolve_transfer c s r amount result).1 r
        + min (unusedOf amount result) (ft_balance_of c r)
      = ft_balance_of c r ∧
    (ft_resolve_transfer c s r amount result).2
        + min (unusedOf amount result) (ft_balance_of c r)
      = amount := by
  obtain ⟨sB, hsB⟩ := registered_some c s hs
  have hbs : ft_balance_of c s = sB := bal_of_lookup c s sB hsB
  have hrle : min (unusedOf amount result) (ft_balance_of c r)
      ≤ ft_balance_of c r := Nat.min_le_right _ _
  have hale : min (unusedOf amount result) (ft_balance_of c r) ≤ amount :=
    le_trans (Nat.min_le_left _ _) (unusedOf_le amount result)
  by_cases h0 : min (unusedOf amount result) (ft_balance_of c r) = 0
  · rw [ft_resolve_transfer_spec_zero c s r amount result h0, h0]
    simp
  · have hrne : ft_balance_of c r ≠ 0 := by
      intro hz
      rw [hz] at h0
      simp at h0
    have hrB : alookup c.accounts r = some (ft_balance_of c r) :=
      alookup_of_bal_ne_zero c r hrne
    rw [ft_resolve_transfer_spec_registered c s r amount result sB hsB hne h0]
    have hls : alookup
        (setBal c.accounts r (ft_balance_of c r
          - min (unusedOf amount result) (ft_balance_of c r))) s
        = some sB := by
      rw [alookup_setBal_ne c.accounts s r
        (ft_balance_of c r
          - min (unusedOf amount result) (ft_balance_of c r))
        (Ne.symm hne)]
      exact hsB
    refine ⟨?_, ?_, by omega⟩
    · rw [bal_mk, alookup_setBal_self _ s sB _ hls]
      rw [hbs]
      rfl
    · rw [bal_mk,
        alookup_setBal_ne _ r s
          (sB + min (unusedOf amount result) (ft_balance_of c r)) hne,
        alookup_setBal_self _ r (ft_balance_of c r) _ hrB]
      show ft_balance_of c r
          - min (unusedOf amount result) (ft_balance_of c r)
          + min (unusedOf amount result) (ft_balance_of c r)
        = ft_balance_of c r
      omega

theorem C3_resolution_clamped_refund_witness :
    ft_balance_of (ft_resolve_transfer
        (Contract.mk [("o", 40), ("r", 7)] 47 []) "o" "r" 1000
        (some 600)).1 "o"
      = ft_balance_of (Contract.mk [("o", 40), ("r", 7)] 47 []) "o"
        + min (unusedOf 1000 (some 600))
          (ft_balance_of (Contract.mk [("o", 40), ("r", 7)] 47 []) "r") ∧
    ft_balance_of (ft_resolve_transfer
        (Contract.mk [("o", 40), ("r", 7)] 47 []) "o" "r" 1000
        (some 600)).1 "r"
        + min (unusedOf 1000 (some 600))
          (ft_balance_of (Contract.mk [("o", 40), ("r", 7)] 47 []) "r")
      = ft_balance_of (Contract.mk [("o", 40), ("r", 7)] 47 []) "r" ∧
    (ft_resolve_transfer (Contract.mk [("o", 40), ("r", 7)] 47 [])
        "o" "r" 1000 (some 600)).2
        + min (unusedOf 1000 (some 600))
          (ft_balance_of (Contract.mk [("o", 40), ("r", 7)] 47 []) "r")
      = 1000 :=
  C3_resolution_clamped_refund (Contract.mk [("o", 40), ("r", 7)] 47 [])
    "o" "r" 1000 (some 600) rfl (by decide)

/-! ### Claim C4 -/

/-- C4: in the resolution of `transfer_call`, when the sender is no longer
registered, the unused amount that would have been refunded (the clamped
refund) is burned instead: `total_supply()` decreases by exactly that
amount, a burn notification is emitted, and the full `amount` is reported
as used. -/
theorem C4_burn_when_sender_unregistered (c : Contract) (s r : AccountId)
    (amount : Nat) (result : Option Nat)
    (hs : registered c s = false)
    (h0 : min (unusedOf amount result) (ft_balance_of c r) ≠ 0)
    (hts : min (unusedOf amount result) (ft_balance_of c r)
      ≤ ft_total_supply c) :
    ft_total_supply (ft_resolve_transfer c s r amount result).1
        + min (unusedOf amount result) (ft_balance_of c r)
      = ft_total_supply c ∧
    (ft_resolve_transfer c s r amount result).1.events
      = Event.burn r (min (unusedOf amount result) (ft_balance_of c r))
        :: c.events ∧
    (ft_resolve_transfer c s r amount result).2 = amount := by
  have hsn : alookup c.accounts s = none := unregistered_none c s hs
  have hne : s ≠ r := by
    intro he
    apply h0
    rw [← he]
    have : ft_balance_of c s = 0 := bal_zero_of_unregistered c s hs
    rw [this]
    simp
  rw [ft_resolve_transfer_spec_unregistered c s r amount result hsn hne h0]
  refine ⟨?_, rfl, rfl⟩
  show c.total_supply - min (unusedOf amount result) (ft_balance_of c r)
      + min (unusedOf amount result) (ft_balance_of c r)
    = c.total_supply
  have : min (unusedOf amount result) (ft_balance_of c r)
      ≤ c.total_supply := hts
  omega

theorem C4_burn_when_sender_unregistered_witness :
    ft_total_supply (ft_resolve_transfer
        (Contract.mk [("r", 1000)] 1000 []) "s" "r" 1000 none).1
        + min (unusedOf 1000 none)
          (ft_balance_of (Contract.mk [("r", 1000)] 1000 []) "r")
      = ft_total_supply (Contract.mk [("r", 1000)] 1000 []) ∧
    (ft_resolve_transfer (Contract.mk [("r", 1000)] 1000 [])
        "s" "r" 1000 none).1.events
      = Event.burn "r" (min (unusedOf 1000 none)
          (ft_balance_of (Contract.mk [("r", 1000)] 1000 []) "r")) :: [] ∧
    (ft_resolve_transfer (Contract.mk [("r", 1000)] 1000 [])
        "s" "r" 1000 none).2 = 1000 :=
  C4_burn_when_sender_unregistered (Contract.mk [("r", 1000)] 1000 [])
    "s" "r" 1000 none rfl (by decide) (by decide)

/-! ### Claim C5: total-supply monotonicity -/

theorem storage_unregister_ts (c c' : Contract) (a : AccountId) (f : Bool)
    (h : storage_unregister c a f = Except.ok c') :
    c'.total_supply ≤ c.total_supply ∧
    (c'.total_supply ≠ c.total_supply → f = true) := by
  unfold storage_unregister at h
  split at h
  · simp at h
  next v hv =>
    split at h
    next hv0 =>
      simp only [Except.ok.injEq] at h
      subst h
      exact ⟨Nat.le_refl _, fun hn => absurd rfl hn⟩
    next hv0 =>
      split at h
      next hf =>
        simp only [Except.ok.injEq] at h
        subst h
        exact ⟨Nat.sub_le _ _, fun _ => hf⟩
      next hf => simp at h

theorem ft_resolve_transfer_ts (c : Contract) (s r : AccountId)
    (amt : Nat) (res : Option Nat) :
    (ft_resolve_transfer c s r amt res).1.total_supply
      ≤ c.total_supply := by
  by_cases h0 : min (unusedOf amt res) (ft_balance_of c r) = 0
  · rw [ft_resolve_transfer_spec_zero c s r amt res h0]
  · unfold ft_resolve_transfer
    simp only [if_neg h0]
    cases hs : alookup (setBal c.accounts r
        (ft_balance_of c r - min (unusedOf amt res) (ft_balance_of c r)))
        s with
    | some sB =>
        simp only [hs]
        exact Nat.le_refl _
    | none =>
        simp only [hs]
        exact Nat.sub_le _ _

theorem runOp_ts (c c' : Contract) (op : Op)
    (h : runOp c op = Except.ok c') :
    c'.total_supply ≤ c.total_supply ∧
    (c'.total_supply ≠ c.total_supply →
      Op.isForcedUnregister op = true ∨ Op.isResolveTransfer op = true) := by
  cases op with
  | register a =>
      obtain ⟨-, h2, -⟩ := internal_register_account_ok c c' a h
      exact ⟨Nat.le_of_eq h2, fun hn => absurd h2 hn⟩
  | storageDeposit a att mb =>
      rcases storage_deposit_ok_cases c c' a att mb h with hc | hr
      · subst hc
        exact ⟨Nat.le_refl _, fun hn => absurd rfl hn⟩
      · obtain ⟨-, h2, -⟩ := internal_register_account_ok c c' a hr
        exact ⟨Nat.le_of_eq h2, fun hn => absurd h2 hn⟩
  | storageWithdraw amt =>
      have hc := storage_withdraw_ok c c' amt h
      subst hc
      exact ⟨Nat.le_refl _, fun hn => absurd rfl hn⟩
  | storageUnregister a f =>
      obtain ⟨h1, h2⟩ := storage_unregister_ts c c' a f h
      exact ⟨h1, fun hn => Or.inl (h2 hn)⟩
  | transfer s r amt =>
      obtain ⟨-, h2⟩ := internal_transfer_sum c c' s r amt h
      exact ⟨Nat.le_of_eq h2, fun hn => absurd h2 hn⟩
  | transferCall s r amt =>
      obtain ⟨-, h2⟩ := internal_transfer_sum c c' s r amt h
      exact ⟨Nat.le_of_eq h2, fun hn => absurd h2 hn⟩
  | resolveTransfer s r amt res =>
      simp only [runOp, Except.ok.injEq] at h
      subst h
      exact ⟨ft_resolve_transfer_ts c s r amt res, fun _ => Or.inr rfl⟩

/-- C5 counterexample: a transfer-call resolution whose sender is no longer
registered decreases `total_supply()` although the operation is not a
forced unregistration, so forced unregistration burns are not the only
supply-changing operation. -/
theorem C5_counterexample_resolution_burn :
    ft_total_supply (applyOp (Contract.mk [("r", 1000)] 1000 [])
        (Op.resolveTransfer "s" "r" 1000 none))
      ≠ ft_total_supply (Contract.mk [("r", 1000)] 1000 []) ∧
    Op.isForcedUnregister (Op.resolveTransfer "s" "r" 1000 none) = false := by
  decide

/-- C5 (amended): `total_supply()` never increases under any operation, and
the only operations that can change it are forced unregistration burns and
transfer-call resolution burns (the resolution burns when the sender is no
longer registered); every other operation leaves it unchanged. -/
theorem C5_amended_total_supply_monotone (c : Contract) (op : Op) :
    ft_total_supply (applyOp c op) ≤ ft_total_supply c ∧
    (ft_total_supply (applyOp c op) ≠ ft_total_supply c →
      Op.isForcedUnregister op = true ∨ Op.isResolveTransfer op = true) := by
  unfold applyOp
  cases hr : runOp c op with
  | ok c' => exact runOp_ts c c' op hr
  | error e => exact ⟨Nat.le_refl _, fun hn => absurd rfl hn⟩

theorem C5_amended_total_supply_monotone_witness :
    ft_total_supply (applyOp (Contract.mk [("a", 5)] 5 [])
        (Op.storageUnregister "a" true))
      ≤ ft_total_supply (Contract.mk [("a", 5)] 5 []) ∧
    (Op.isForcedUnregister (Op.storageUnregister "a" true) = true ∨
      Op.isResolveTransfer (Op.storageUnregister "a" true) = true) :=
  ⟨(C5_amended_total_supply_monotone (Contract.mk [("a", 5)] 5 [])
      (Op.storageUnregister "a" true)).1,
    (C5_amended_total_supply_monotone (Contract.mk [("a", 5)] 5 [])
      (Op.storageUnregister "a" true)).2 (by decide)⟩

/-! ### Claim C6 -/

/-- C6: full-rejection round trip.  If `transfer_call(O, R, 1000)` starts
successfully from state `c` (which already requires O and R registered and
O funded with at least 1000), no other ledger activity interleaves (the
resolution runs on the post-debit state `c1`, in which O is necessarily
still registered), and the receiver reports `unused_amount = 1000`, then
the resolved ledger equals the pre-call ledger: the whole accounts map and
`total_supply()` are restored. -/
theorem C6_full_rejection_roundtrip (c c1 : Contract) (O R : AccountId)
    (h1 : ft_transfer_call c O R 1000 = Except.ok c1) :
    (ft_resolve_transfer c1 O R 1000 (some 1000)).1.accounts
      = c.accounts ∧
    ft_total_supply (ft_resolve_transfer c1 O R 1000 (some 1000)).1
      = ft_total_supply c := by
  obtain ⟨ca, cb, hw, hd, hacc, hts, hz, hor, hev⟩ :=
    internal_transfer_ok c c1 O R 1000 h1
  obtain ⟨v, hv, hle, hacca, htsa, -⟩ := internal_withdraw_ok c ca O 1000 hw
  obtain ⟨u, hu0, hule, haccb, htsb, -⟩ :=
    internal_deposit_ok ca cb R 1000 hd
  rw [hacca] at hu0 haccb
  have hur : alookup c.accounts R = some u := by
    rw [← alookup_setBal_ne c.accounts R O (v - 1000) hor]
    exact hu0
  have hbR1 : alookup c1.accounts R = some (u + 1000) := by
    rw [hacc, haccb]
    exact alookup_setBal_self _ R u _ hu0
  have hbal : ft_balance_of c1 R = u + 1000 :=
    bal_of_lookup c1 R (u + 1000) hbR1
  have hsO : alookup c1.accounts O = some (v - 1000) := by
    rw [hacc, haccb]
    rw [alookup_setBal_ne _ O R (u + 1000) (Ne.symm hor)]
    exact alookup_setBal_self c.accounts O v (v - 1000) hv
  have hrefund : min (unusedOf 1000 (some 1000)) (ft_balance_of c1 R)
      = 1000 := by
    rw [hbal]
    show min (min 1000 1000) (u + 1000) = 1000
    simp
  have h0 : min (unusedOf 1000 (some 1000)) (ft_balance_of c1 R) ≠ 0 := by
    rw [hrefund]
    norm_num
  rw [ft_resolve_transfer_spec_registered c1 O R 1000 (some 1000)
    (v - 1000) hsO hor h0]
  constructor
  · show setBal (setBal c1.accounts R (ft_balance_of c1 R
        - min (unusedOf 1000 (some 1000)) (ft_balance_of c1 R))) O
        (v - 1000 + min (unusedOf 1000 (some 1000)) (ft_balance_of c1 R))
      = c.accounts
    rw [hrefund, hbal, Nat.add_sub_cancel, Nat.sub_add_cancel hle,
      hacc, haccb]
    rw [setBal_setBal_self]
    rw [setBal_comm (setBal c.accounts O (v - 1000)) R O u v
      (Ne.symm hor)]
    rw [setBal_setBal_self]
    rw [setBal_self_eq c.accounts O v hv]
    exact setBal_self_eq c.accounts R u hur
  · show c1.total_supply = c.total_supply
    rw [hts, htsb, htsa]

theorem C6_full_rejection_roundtrip_witness :
    (ft_resolve_transfer (Contract.mk [("o", 4000), ("r", 1000)] 5000
        [Event.ftTransfer "o" "r" 1000]) "o" "r" 1000 (some 1000)).1.accounts
      = (Contract.mk [("o", 5000), ("r", 0)] 5000 []).accounts ∧
    ft_total_supply (ft_resolve_transfer
        (Contract.mk [("o", 4000), ("r", 1000)] 5000
          [Event.ftTransfer "o" "r" 1000]) "o" "r" 1000 (some 1000)).1
      = ft_total_supply (Contract.mk [("o", 5000), ("r", 0)] 5000 []) :=
  C6_full_rejection_roundtrip (Contract.mk [("o", 5000), ("r", 0)] 5000 [])
    (Contract.mk [("o", 4000), ("r", 1000)] 5000
      [Event.ftTransfer "o" "r" 1000]) "o" "r" rfl
